import Mathlib

/-!
Verification of the `clusterpeers` package of the Paxos repository.

The Go source (`src/clusterpeers/clusterpeers.go`) is shallowly embedded:

* `Peer` / `Cluster` mirror the Go structs.  The `*rpc.Client` connection
  handle is modelled by the boolean `hasComm` (`true` iff `comm != nil`);
  the claims only ever test the handle against `nil`.
* The Go map `map[uint64]Peer` is modelled as an association list
  `List (Nat × Peer)`.  Go map reads of an absent key yield the zero value
  of `Peer` (`goLookup`); Go map assignment replaces an existing entry or
  appends a fresh one (`goInsert`).  Where a Go map cannot have duplicate
  keys, theorems take a `Nodup` hypothesis on the key list.
* `skipPromiseCount` is a Go `uint64`: it is modelled as a `Nat` together
  with explicit wrap-around increment/decrement modulo `2 ^ 64`
  (`inc64` / `dec64`), so the underflow `0 - 1 = 2 ^ 64 - 1` of the Go
  code is preserved.
* Network arrival timing is abstracted: a fan-in loop is run against the
  list of reply events that get delivered before the timeout fires, in
  arrival order; the end of the list is the timeout firing.  For the
  2-second collector (`wrapReply`) the inter-arrival gaps are kept, in
  milliseconds, because the claims speak about the length of the
  collection window.
-/

/-- Mirrors the Go struct `Peer`.  `hasComm` is `true` iff the
`comm *rpc.Client` field is non-nil. -/
structure Peer where
  roleId : Nat
  address : String
  hasComm : Bool
  requirePromise : Bool
deriving Repr, DecidableEq

/-- The zero value of the Go struct `Peer`, produced by reading an absent
key from `map[uint64]Peer`. -/
def Peer.zero : Peer :=
  { roleId := 0, address := "", hasComm := false, requirePromise := false }

/-- Mirrors the mutable state of the Go struct `Cluster`: the `nodes` map
and the `skipPromiseCount` counter, plus the immutable `roleId`.  The
`registerBadConnection` channel is modelled by returning the list of
role-ids that an operation sends on it; the mutex is analysed separately
as a lock-discipline model over action traces. -/
structure Cluster where
  roleId : Nat
  nodes : List (Nat × Peer)
  skipPromiseCount : Nat
deriving Repr, DecidableEq

/-- Go map read `m[k]`: the stored value, or the zero value when absent. -/
def goLookup (nodes : List (Nat × Peer)) (id : Nat) : Peer :=
  match nodes.find? (fun kv => kv.1 == id) with
  | some kv => kv.2
  | none => Peer.zero

/-- Go map write `m[k] = v`: replace the entry when the key is present,
append a fresh entry otherwise. -/
def goInsert (nodes : List (Nat × Peer)) (id : Nat) (p : Peer) : List (Nat × Peer) :=
  match nodes with
  | [] => [(id, p)]
  | kv :: rest => if kv.1 = id then (id, p) :: rest else kv :: goInsert rest id p

/-- Number of entries of the map whose `requirePromise` field is `false`,
i.e. the true value the `skipPromiseCount` counter is meant to track. -/
def countFalse (nodes : List (Nat × Peer)) : Nat :=
  (nodes.filter (fun kv => !kv.2.requirePromise)).length

/-- Size of the Go `uint64` value space. -/
def uint64Card : Nat := 2 ^ 64

/-- Go `uint64` increment `n + 1` with wrap-around. -/
def inc64 (n : Nat) : Nat := (n + 1) % uint64Card

/-- Go `uint64` decrement `n - 1` with wrap-around (`0` wraps to
`2 ^ 64 - 1`). -/
def dec64 (n : Nat) : Nat := (n + (uint64Card - 1)) % uint64Card

/-- Mirrors `Cluster.SetPromiseRequirement`: reads `this.nodes[roleId]`
(zero value when absent), adjusts `skipPromiseCount` when the flag
changes, and writes the updated peer back. -/
def setPromiseRequirement (c : Cluster) (roleId : Nat) (required : Bool) : Cluster :=
  let peer := goLookup c.nodes roleId
  let skip :=
    if peer.requirePromise ≠ required then
      if required then dec64 c.skipPromiseCount else inc64 c.skipPromiseCount
    else c.skipPromiseCount
  { c with
    skipPromiseCount := skip,
    nodes := goInsert c.nodes roleId { peer with requirePromise := required } }

/-- The `skipPromiseCount` bookkeeping invariant of the spec: the counter
equals the number of peers with `requirePromise = false`. -/
def SkipInv (c : Cluster) : Prop :=
  c.skipPromiseCount = countFalse c.nodes

instance : DecidablePred SkipInv := fun c => by
  unfold SkipInv; infer_instance

/-- A reply event drained from the heartbeat endpoint channel: either a
successful reply carrying the responding peer's role-id (`reply.Error ==
nil`, `*reply.Reply.(*uint64)`), or an errored reply. -/
inductive HBReply where
  | ok (id : Nat)
  | err
deriving Repr, DecidableEq

/-- Mirrors the fan-in loop of `Cluster.BroadcastHeartbeat`: starting
from `replyCount = 0`, the loop runs while `replyCount < peerCount`;
each delivered reply either records the responder (no error) or sets
`failures`; the `time.After` arm — modelled as the event list running
out — sets `failures` and forces `replyCount = peerCount`.  Returns the
list of recorded responder ids (the `received` map) and the `failures`
flag. -/
def heartbeatCollect : Nat → List HBReply → List Nat × Bool
  | 0, _ => ([], false)
  | _ + 1, [] => ([], true)
  | n + 1, HBReply.ok id :: rest =>
    let out := heartbeatCollect n rest
    (id :: out.1, out.2)
  | n + 1, HBReply.err :: rest =>
    let out := heartbeatCollect n rest
    (out.1, true)

/-- Mirrors the demotion loop of `Cluster.BroadcastHeartbeat`: for every
role-id of the map that is not marked in `received`, decrement
`skipPromiseCount` when the peer had `requirePromise = false`, force
`requirePromise = true`, write the peer back, and send the role-id on
`registerBadConnection`.  Returns the updated map, the updated counter
and the list of enqueued role-ids. -/
def demoteLoop (received : Nat → Bool) :
    List (Nat × Peer) → Nat → List (Nat × Peer) × Nat × List Nat
  | [], skip => ([], skip, [])
  | (id, p) :: rest, skip =>
    if received id then
      let out := demoteLoop received rest skip
      ((id, p) :: out.1, out.2.1, out.2.2)
    else
      let skip1 := if p.requirePromise then skip else dec64 skip
      let out := demoteLoop received rest skip1
      ((id, { p with requirePromise := true }) :: out.1, out.2.1, id :: out.2.2)

/-- The set of peers `Cluster.BroadcastHeartbeat` actually sends a pulse
to: every entry of the map whose connection handle is non-nil. -/
def heartbeatTargets (c : Cluster) : List Nat :=
  (c.nodes.filter (fun kv => kv.2.hasComm)).map (fun kv => kv.1)

/-- Mirrors `Cluster.BroadcastHeartbeat` end to end, abstracting arrival
timing into the event list `events` (the replies drained before the
500 ms arm fires).  `peerCount` is `len(this.nodes)` — the whole
registry, local node included — even though pulses go only to
`heartbeatTargets`.  Returns the updated cluster and the role-ids sent
on `registerBadConnection`. -/
def broadcastHeartbeat (c : Cluster) (events : List HBReply) : Cluster × List Nat :=
  let peerCount := c.nodes.length
  let collected := heartbeatCollect peerCount events
  if collected.2 then
    let out := demoteLoop (fun id => collected.1.contains id) c.nodes c.skipPromiseCount
    ({ c with nodes := out.1, skipPromiseCount := out.2.1 }, out.2.2)
  else
    (c, [])

/-- Mirrors the send loop of `Cluster.BroadcastPrepareRequest`: iterate
over the map, call `AcceptorRole.Prepare` on every peer with
`requirePromise` set and a non-nil connection, counting the calls.
Returns `peerCount` and the role-ids called, in iteration order. -/
def prepareSendLoop : List (Nat × Peer) → Nat × List Nat
  | [] => (0, [])
  | kv :: rest =>
    let out := prepareSendLoop rest
    if kv.2.requirePromise && kv.2.hasComm then (out.1 + 1, kv.1 :: out.2) else out

/-- Mirrors `Cluster.BroadcastPrepareRequest`: when `skipPromiseCount <
nodeCount/2 + 1` run the send loop, otherwise skip the prepare phase and
send nothing.  Returns the returned `peerCount` and the role-ids
called. -/
def broadcastPrepareRequest (c : Cluster) : Nat × List Nat :=
  let nodeCount := c.nodes.length
  if c.skipPromiseCount < nodeCount / 2 + 1 then prepareSendLoop c.nodes
  else (0, [])

/-- Mirrors the send loop of `Cluster.BroadcastProposalRequest`: call
`AcceptorRole.Accept` on every peer not marked in `filter` (a Go
`map[uint64]bool`, read with zero-value default `false`, hence a total
boolean function) that has a non-nil connection. -/
def proposalSendLoop (filter : Nat → Bool) : List (Nat × Peer) → Nat × List Nat
  | [] => (0, [])
  | kv :: rest =>
    let out := proposalSendLoop filter rest
    if !filter kv.1 && kv.2.hasComm then (out.1 + 1, kv.1 :: out.2) else out

/-- Mirrors `Cluster.BroadcastProposalRequest`: the send loop over the
whole map with the exclusion filter.  Returns the returned `peerCount`
and the role-ids called. -/
def broadcastProposalRequest (c : Cluster) (filter : Nat → Bool) : Nat × List Nat :=
  proposalSendLoop filter c.nodes

/-- Outcome of `Cluster.NotifyOfSuccess`.  The Go body is
`this.nodes[roleId].comm.Go(...)`: when the peer's `comm` is nil (or the
role-id is absent, making the read yield the zero value) the method call
dereferences a nil `*rpc.Client` and the process panics. -/
inductive NotifyOutcome where
  | sent
  | panicNilClient
deriving Repr, DecidableEq

/-- Mirrors `Cluster.NotifyOfSuccess` up to the dispatch decision: it
reads `this.nodes[roleId]` (no lock, zero value when absent) and invokes
`comm.Go`, which panics when `comm` is nil. -/
def notifyOfSuccess (c : Cluster) (roleId : Nat) : NotifyOutcome :=
  if (goLookup c.nodes roleId).hasComm then NotifyOutcome.sent
  else NotifyOutcome.panicNilClient

/-- A reply event drained from a broadcast endpoint channel by
`wrapReply`, tagged with its arrival gap: the number of milliseconds
between the collector starting this iteration's `select` and the reply
being delivered.  Successful replies carry their payload (abstracted to
a `Nat`). -/
inductive ReplyEv where
  | ok (data : Nat)
  | err
deriving Repr, DecidableEq

/-- Mirrors the collector loop `Cluster.wrapReply` with explicit timing.
Each iteration of the Go loop evaluates `time.After(2*time.Second)`
afresh, so a reply is taken iff its gap since the previous iteration is
below the window; otherwise the timeout arm fires and the collector
returns.  The first component is the forwarded payload list (errored
replies are counted but not forwarded), the second the total elapsed
milliseconds until the collector returns. -/
def wrapReplyRun (window : Nat) : Nat → List (Nat × ReplyEv) → List Nat × Nat
  | 0, _ => ([], 0)
  | _ + 1, [] => ([], window)
  | n + 1, (gap, ev) :: rest =>
    if gap < window then
      let out := wrapReplyRun window n rest
      match ev with
      | ReplyEv.ok d => (d :: out.1, gap + out.2)
      | ReplyEv.err => (out.1, gap + out.2)
    else ([], window)

/-- The window constant of `wrapReply`, in milliseconds
(`2*time.Second`). -/
def wrapReplyWindowMs : Nat := 2000

/-- A network address returned by `net.LookupIP`, abstracted to whether
`ip.To4()` is non-nil and the result of `ip.String()`. -/
structure GoIP where
  isIPv4 : Bool
  str : String
deriving Repr, DecidableEq

/-- Errors surfaced by `ConstructCluster`, tagged by origin. -/
inductive GoErr where
  | retrieveErr (msg : String)
  | hostnameErr (msg : String)
  | lookupErr (msg : String)
  | splitErr (addr : String)
  | addressNotFound (addr : String)
deriving Repr, DecidableEq

/-- Decidable equality for `Except`, so that concrete outcomes can be
checked by evaluation. -/
instance {e a : Type} [DecidableEq e] [DecidableEq a] : DecidableEq (Except e a) :=
  fun x y =>
    match x, y with
    | Except.ok v, Except.ok w =>
      if h : v = w then isTrue (by rw [h]) else isFalse (fun hc => h (Except.ok.inj hc))
    | Except.error v, Except.error w =>
      if h : v = w then isTrue (by rw [h]) else isFalse (fun hc => h (Except.error.inj hc))
    | Except.ok _, Except.error _ => isFalse (fun hc => Except.noConfusion hc)
    | Except.error _, Except.ok _ => isFalse (fun hc => Except.noConfusion hc)

/-- Splits a character list at its first colon. -/
def splitAtColon : List Char → Option (List Char × List Char)
  | [] => none
  | c :: rest =>
    if c = ':' then some ([], rest)
    else
      match splitAtColon rest with
      | some hp => some (c :: hp.1, hp.2)
      | none => none

/-- Number of colons in a character list. -/
def colonCount (cs : List Char) : Nat :=
  (cs.filter (fun c => c == ':')).length

/-- Model of `net.SplitHostPort` for the address shapes this repository
uses (`host:port` with a single colon): splits at the colon, and errors
when the address does not consist of exactly a host and a port part. -/
def splitHostPort (s : String) : Except GoErr (String × String) :=
  if colonCount s.toList = 1 then
    match splitAtColon s.toList with
    | some hp => Except.ok (String.mk hp.1, String.mk hp.2)
    | none => Except.error (GoErr.splitErr s)
  else Except.error (GoErr.splitErr s)

/-- Mirrors the IPv4-selection loop of `ConstructCluster`: the string of
the first address with a non-nil `To4()`, or the empty string when there
is none. -/
def firstIPv4 (ips : List GoIP) : String :=
  match ips.find? (fun ip => ip.isIPv4) with
  | some ip => ip.str
  | none => ""

/-- Mirrors the matching loop of `ConstructCluster`: walk the address
table, split each entry (an error aborts construction), and stop at the
first entry whose host equals the detected address, returning its
role-id; `0` when the loop finishes without a match. -/
def scanAddresses (thisAddress : String) : List (Nat × String) → Except GoErr Nat
  | [] => Except.ok 0
  | (id, full) :: rest =>
    match splitHostPort full with
    | Except.error e => Except.error e
    | Except.ok hp => if thisAddress = hp.1 then Except.ok id else scanAddresses thisAddress rest

/-- Mirrors the peer-map construction of `ConstructCluster`: every entry
of the address table becomes a `Peer` with no connection and
`requirePromise = true`. -/
def initialPeers (addresses : List (Nat × String)) : List (Nat × Peer) :=
  addresses.map (fun a =>
    (a.1, { roleId := a.1, address := a.2, hasComm := false, requirePromise := true }))

/-- Mirrors the role-id resolution of `ConstructCluster`.  The external
collaborators are passed as data: `hostname` is the outcome of
`os.Hostname()` and `lookup` the outcome of `net.LookupIP`.  When the
given role-id is `0`, the local address is detected and matched against
the table; a remaining role-id of `0` is the `AddressNotFound` failure.
A non-zero role-id skips detection entirely. -/
def resolveRoleId (roleId : Nat) (addresses : List (Nat × String))
    (hostname : Except GoErr String) (lookup : String → Except GoErr (List GoIP)) :
    Except GoErr Nat :=
  if roleId = 0 then
    match hostname with
    | Except.error e => Except.error e
    | Except.ok name =>
      match lookup name with
      | Except.error e => Except.error e
      | Except.ok ips =>
        let thisAddress := firstIPv4 ips
        match scanAddresses thisAddress addresses with
        | Except.error e => Except.error e
        | Except.ok rid =>
          if rid = 0 then Except.error (GoErr.addressNotFound thisAddress)
          else Except.ok rid
  else Except.ok roleId

/-- Mirrors the remainder of `ConstructCluster`: build the peer map,
resolve the role-id, assemble the cluster, and read the local address
out of the map. -/
def constructCluster (roleId : Nat) (retrieve : Except GoErr (List (Nat × String)))
    (hostname : Except GoErr String) (lookup : String → Except GoErr (List GoIP)) :
    Except GoErr (Cluster × Nat × String) :=
  match retrieve with
  | Except.error e => Except.error e
  | Except.ok addresses =>
    let peers := initialPeers addresses
    match resolveRoleId roleId addresses hostname lookup with
    | Except.error e => Except.error e
    | Except.ok rid =>
      let c : Cluster := { roleId := rid, nodes := peers, skipPromiseCount := 0 }
      Except.ok (c, rid, (goLookup peers rid).address)

/-- The entries of an address table whose host part equals the given
address (treating unsplittable entries as non-matching); used to state
the identity-resolution claims. -/
def matchingEntries (thisAddress : String) (addresses : List (Nat × String)) :
    List (Nat × String) :=
  addresses.filter (fun a =>
    match splitHostPort a.2 with
    | Except.ok hp => thisAddress = hp.1
    | Except.error _ => false)

/-- Atomic actions of the lock-discipline model: each Go method body of
`Cluster` is transcribed, statement by statement, into a trace of these
actions (loop bodies appear once — repeating them never changes whether
the lock is held at an action). -/
inductive Act where
  | lock
  | unlock
  | readReg
  | writeReg
  | readSkip
  | writeSkip
  | netDial
  | netListen
  | netAccept
  | netCallAsync
  | timedWait
  | timedSleep
  | chanSendB
  | chanSendU
  | chanRecv
  | spawn
deriving Repr, DecidableEq

/-- Actions that read or write the peer registry or the
`skipPromiseCount` counter. -/
def Act.isMemAccess : Act → Bool
  | Act.readReg => true
  | Act.writeReg => true
  | Act.readSkip => true
  | Act.writeSkip => true
  | _ => false

/-- Actions that block on the network, on a timer, or on an unbuffered
channel handoff.  `rpc.Client.Go` is asynchronous and returns at once;
`net.Listen` binds a local socket; a buffered channel send does not block
while the buffer has room. -/
def Act.isBlocking : Act → Bool
  | Act.netDial => true
  | Act.netAccept => true
  | Act.timedWait => true
  | Act.timedSleep => true
  | Act.chanSendU => true
  | Act.chanRecv => true
  | _ => false

/-- Annotates every action of a trace with whether the exclusion lock is
held while it executes. -/
def annotateLock : Bool → List Act → List (Act × Bool)
  | _, [] => []
  | held, Act.lock :: rest => (Act.lock, held) :: annotateLock true rest
  | held, Act.unlock :: rest => (Act.unlock, held) :: annotateLock false rest
  | held, a :: rest => (a, held) :: annotateLock held rest

/-- Every registry/counter access of the trace happens under the lock. -/
def memAccessesUnderLock (t : List Act) : Bool :=
  (annotateLock false t).all (fun ab => !ab.1.isMemAccess || ab.2)

/-- No blocking action of the trace happens while the lock is held. -/
def noBlockingUnderLock (t : List Act) : Bool :=
  (annotateLock false t).all (fun ab => !ab.1.isBlocking || !ab.2)

/-- Names of the `Cluster` operations (and their helper goroutine
bodies) covered by the lock-discipline model. -/
inductive OpName where
  | listen
  | listenAcceptLoop
  | connect
  | connectionManager
  | establishConnection
  | getPeerCount
  | getSkipPromiseCount
  | setPromiseRequirement
  | broadcastHeartbeat
  | broadcastPrepareRequest
  | broadcastProposalRequest
  | notifyOfSuccess
  | wrapReply
deriving Repr, DecidableEq

/-- Trace of `Cluster.Listen`: lock (deferred unlock), read the local
address from the registry, `net.Listen`, print the address (a second
registry read), spawn the accept loop, return (deferred unlock runs). -/
def listenTrace : List Act :=
  [Act.lock, Act.readReg, Act.netListen, Act.readReg, Act.spawn, Act.unlock]

/-- Trace of the accept-loop goroutine of `Cluster.Listen`:
`ln.Accept()` then a spawned `handler.ServeConn`. -/
def listenAcceptLoopTrace : List Act :=
  [Act.netAccept, Act.spawn]

/-- Trace of `Cluster.Connect`: lock (deferred unlock), then per peer a
blocking `rpc.Dial` followed by either a send on the buffered
`registerBadConnection` channel or a registry write. -/
def connectTrace : List Act :=
  [Act.lock, Act.netDial, Act.chanSendB, Act.writeReg, Act.unlock]

/-- Trace of the `Cluster.connectionManager` goroutine: a `select` over
the two channels, spawning a worker on a bad-connection notice. -/
def connectionManagerTrace : List Act :=
  [Act.chanRecv, Act.spawn, Act.chanRecv]

/-- Trace of `Cluster.establishConnection`: lock, read the peer, unlock;
then the retry loop (`rpc.Dial`, `time.Sleep` on failure); on success
lock, re-read and write the peer, send on the unbuffered
`connectionEstablished` channel, unlock. -/
def establishConnectionTrace : List Act :=
  [Act.lock, Act.readReg, Act.unlock, Act.netDial, Act.timedSleep,
   Act.lock, Act.readReg, Act.writeReg, Act.chanSendU, Act.unlock]

/-- Trace of `Cluster.GetPeerCount`. -/
def getPeerCountTrace : List Act :=
  [Act.lock, Act.readReg, Act.unlock]

/-- Trace of `Cluster.GetSkipPromiseCount`. -/
def getSkipPromiseCountTrace : List Act :=
  [Act.lock, Act.readSkip, Act.unlock]

/-- Trace of `Cluster.SetPromiseRequirement`. -/
def setPromiseRequirementTrace : List Act :=
  [Act.lock, Act.readReg, Act.readSkip, Act.writeSkip, Act.writeReg, Act.unlock]

/-- Trace of `Cluster.BroadcastHeartbeat`: lock (deferred unlock), read
the registry and launch the asynchronous pulses, run the 500 ms fan-in
`select` loop, then the demotion loop (registry and counter accesses plus
buffered `registerBadConnection` sends), return (unlock).  The timed
fan-in wait executes with the lock held. -/
def broadcastHeartbeatTrace : List Act :=
  [Act.lock, Act.readReg, Act.netCallAsync, Act.timedWait,
   Act.readReg, Act.readSkip, Act.writeSkip, Act.writeReg, Act.chanSendB, Act.unlock]

/-- Trace of `Cluster.BroadcastPrepareRequest`: lock (deferred unlock),
read the counter and the registry, launch asynchronous calls, spawn the
collector, return (unlock). -/
def broadcastPrepareRequestTrace : List Act :=
  [Act.lock, Act.readSkip, Act.readReg, Act.netCallAsync, Act.spawn, Act.unlock]

/-- Trace of `Cluster.BroadcastProposalRequest`: symmetric to the
prepare broadcast, without the counter read. -/
def broadcastProposalRequestTrace : List Act :=
  [Act.lock, Act.readReg, Act.netCallAsync, Act.spawn, Act.unlock]

/-- Trace of `Cluster.NotifyOfSuccess`: it reads `this.nodes[roleId]`
and dispatches the asynchronous call without ever taking the lock. -/
def notifyOfSuccessTrace : List Act :=
  [Act.readReg, Act.netCallAsync, Act.spawn]

/-- Trace of the `Cluster.wrapReply` collector goroutine: the timed
fan-in `select` loop and the forwards on the buffered response
channel. -/
def wrapReplyTrace : List Act :=
  [Act.timedWait, Act.chanSendB]

/-- All modelled operations with their traces. -/
def clusterOps : List (OpName × List Act) :=
  [(OpName.listen, listenTrace),
   (OpName.listenAcceptLoop, listenAcceptLoopTrace),
   (OpName.connect, connectTrace),
   (OpName.connectionManager, connectionManagerTrace),
   (OpName.establishConnection, establishConnectionTrace),
   (OpName.getPeerCount, getPeerCountTrace),
   (OpName.getSkipPromiseCount, getSkipPromiseCountTrace),
   (OpName.setPromiseRequirement, setPromiseRequirementTrace),
   (OpName.broadcastHeartbeat, broadcastHeartbeatTrace),
   (OpName.broadcastPrepareRequest, broadcastPrepareRequestTrace),
   (OpName.broadcastProposalRequest, broadcastProposalRequestTrace),
   (OpName.notifyOfSuccess, notifyOfSuccessTrace),
   (OpName.wrapReply, wrapReplyTrace)]

/-- The lock-discipline claim of the spec, as one boolean over all
modelled operations: every registry/counter access is under the lock and
the lock is never held across a blocking action. -/
def lockDisciplineClaim : Bool :=
  clusterOps.all (fun op => memAccessesUnderLock op.2 && noBlockingUnderLock op.2)

/-- Number of registry entries the demotion loop decrements the counter
for: the entries that are not marked received and currently have
`requirePromise = false`. -/
def demotedFalseCount (received : Nat → Bool) (nodes : List (Nat × Peer)) : Nat :=
  (nodes.filter (fun kv => !received kv.1 && !kv.2.requirePromise)).length

/-- The operations that mutate `requirePromise` fields, for stating the
sequence form of the bookkeeping invariant: a `SetPromiseRequirement`
call, or a heartbeat round with a given delivered-reply list. -/
inductive ClusterOp where
  | setReq (roleId : Nat) (required : Bool)
  | heartbeat (events : List HBReply)
deriving Repr, DecidableEq

/-- Runs one mutating operation (the heartbeat's queue output is
discarded: only the registry and the counter matter for the
invariant). -/
def applyOp (c : Cluster) : ClusterOp → Cluster
  | ClusterOp.setReq id required => setPromiseRequirement c id required
  | ClusterOp.heartbeat events => (broadcastHeartbeat c events).1

/-- Runs a sequence of mutating operations in order. -/
def applyOps (c : Cluster) : List ClusterOp → Cluster
  | [] => c
  | op :: rest => applyOps (applyOp c op) rest

/-- A `SetPromiseRequirement` call is addressed to an existing cluster
member; heartbeat rounds carry no side condition. -/
def opValid (c : Cluster) : ClusterOp → Prop
  | ClusterOp.setReq id _ => id ∈ c.nodes.map Prod.fst
  | ClusterOp.heartbeat _ => True

theorem inc64_eq {n : Nat} (h : n + 1 < uint64Card) : inc64 n = n + 1 :=
  Nat.mod_eq_of_lt h

theorem dec64_eq {n : Nat} (h1 : 1 ≤ n) (h2 : n < uint64Card) : dec64 n = n - 1 := by
  have hc : uint64Card = 2 ^ 64 := rfl
  unfold dec64
  rw [hc] at h2 ⊢
  omega

theorem countFalse_nil : countFalse [] = 0 := rfl

theorem countFalse_cons (kv : Nat × Peer) (rest : List (Nat × Peer)) :
    countFalse (kv :: rest) = (if kv.2.requirePromise then 0 else 1) + countFalse rest := by
  by_cases h : kv.2.requirePromise
  · simp [countFalse, List.filter_cons, h]
  · simp [countFalse, List.filter_cons, h]
    omega

theorem countFalse_le_length (nodes : List (Nat × Peer)) : countFalse nodes ≤ nodes.length :=
  List.length_filter_le _ _

theorem goLookup_cons_self {id : Nat} {p : Peer} {rest : List (Nat × Peer)} :
    goLookup ((id, p) :: rest) id = p := by
  simp [goLookup, List.find?_cons]

theorem goLookup_cons_ne {k id : Nat} (h : ¬k = id) {q : Peer} {rest : List (Nat × Peer)} :
    goLookup ((k, q) :: rest) id = goLookup rest id := by
  simp [goLookup, List.find?_cons, h]

theorem goInsert_map_fst {id : Nat} {p' : Peer} :
    ∀ {nodes : List (Nat × Peer)}, id ∈ nodes.map Prod.fst →
      (goInsert nodes id p').map Prod.fst = nodes.map Prod.fst := by
  intro nodes
  induction nodes with
  | nil => intro h; simp at h
  | cons kv rest ih =>
    intro hmem
    by_cases hk : kv.1 = id
    · obtain ⟨k, q⟩ := kv
      simp only at hk
      subst hk
      simp [goInsert]
    · obtain ⟨k, q⟩ := kv
      simp only at hk
      have hmem' : id ∈ rest.map Prod.fst := by
        rcases List.mem_map.mp hmem with ⟨a, ha, hfst⟩
        rcases List.mem_cons.mp ha with h1 | h2
        · exact absurd (by rw [h1] at hfst; exact hfst) hk
        · exact List.mem_map.mpr ⟨a, h2, hfst⟩
      simp [goInsert, hk, ih hmem']

theorem goInsert_length {id : Nat} {p' : Peer} {nodes : List (Nat × Peer)}
    (hmem : id ∈ nodes.map Prod.fst) : (goInsert nodes id p').length = nodes.length := by
  have h := @goInsert_map_fst id p' nodes hmem
  have h1 := congrArg List.length h
  simpa using h1

theorem countFalse_goInsert {id : Nat} {p' : Peer} :
    ∀ {nodes : List (Nat × Peer)}, id ∈ nodes.map Prod.fst →
      countFalse (goInsert nodes id p') +
        (if (goLookup nodes id).requirePromise then 0 else 1)
      = countFalse nodes + (if p'.requirePromise then 0 else 1) := by
  intro nodes
  induction nodes with
  | nil => intro h; simp at h
  | cons kv rest ih =>
    intro hmem
    obtain ⟨k, q⟩ := kv
    by_cases hk : k = id
    · subst hk
      have hg : goInsert ((k, q) :: rest) k p' = (k, p') :: rest := by simp [goInsert]
      rw [goLookup_cons_self, hg, countFalse_cons, countFalse_cons]
      dsimp only
      omega
    · have hmem' : id ∈ rest.map Prod.fst := by
        rcases List.mem_map.mp hmem with ⟨a, ha, hfst⟩
        rcases List.mem_cons.mp ha with h1 | h2
        · exact absurd (by rw [h1] at hfst; exact hfst) hk
        · exact List.mem_map.mpr ⟨a, h2, hfst⟩
      rw [goLookup_cons_ne hk]
      simp only [goInsert, if_neg hk]
      rw [countFalse_cons, countFalse_cons]
      have := ih hmem'
      omega
theorem skipAdjust_correct (nodes : List (Nat × Peer)) (id : Nat) (required : Bool)
    (skip : Nat) (hinv : skip = countFalse nodes) (hmem : id ∈ nodes.map Prod.fst)
    (hlen : nodes.length < uint64Card) :
    (if (goLookup nodes id).requirePromise ≠ required then
       (if required then dec64 skip else inc64 skip) else skip)
      = countFalse (goInsert nodes id
          (Peer.mk (goLookup nodes id).roleId (goLookup nodes id).address
            (goLookup nodes id).hasComm required)) := by
  have hcf := @countFalse_goInsert id
    (Peer.mk (goLookup nodes id).roleId (goLookup nodes id).address
      (goLookup nodes id).hasComm required) nodes hmem
  have hreqp : (Peer.mk (goLookup nodes id).roleId (goLookup nodes id).address
      (goLookup nodes id).hasComm required).requirePromise = required := rfl
  rw [hreqp] at hcf
  have hlin := @goInsert_length id
    (Peer.mk (goLookup nodes id).roleId (goLookup nodes id).address
      (goLookup nodes id).hasComm required) nodes hmem
  have hble : countFalse (goInsert nodes id
      (Peer.mk (goLookup nodes id).roleId (goLookup nodes id).address
        (goLookup nodes id).hasComm required)) ≤ nodes.length := by
    rw [← hlin]; exact countFalse_le_length _
  have hble2 := countFalse_le_length nodes
  by_cases hreq : (goLookup nodes id).requirePromise = required
  · rw [if_neg (by simp [hreq])]
    rw [hreq] at hcf
    omega
  · rw [if_pos hreq]
    cases required with
    | true =>
      have hx : (goLookup nodes id).requirePromise = false := by
        cases h : (goLookup nodes id).requirePromise
        · rfl
        · exact absurd h hreq
      rw [hx] at hcf
      simp only [Bool.false_eq_true, if_false, if_true] at hcf
      rw [if_pos rfl, dec64_eq (by omega) (by omega)]
      omega
    | false =>
      have hx : (goLookup nodes id).requirePromise = true := by
        cases h : (goLookup nodes id).requirePromise
        · exact absurd h hreq
        · rfl
      rw [hx] at hcf
      simp only [Bool.false_eq_true, if_false, if_true] at hcf
      rw [if_neg (by simp), inc64_eq (by omega)]
      omega

theorem skipInv_setPromiseRequirement {c : Cluster} {id : Nat} {required : Bool}
    (hinv : SkipInv c) (hmem : id ∈ c.nodes.map Prod.fst)
    (hlen : c.nodes.length < uint64Card) :
    SkipInv (setPromiseRequirement c id required) :=
  skipAdjust_correct c.nodes id required c.skipPromiseCount hinv hmem hlen

theorem demoteLoop_map_fst (received : Nat → Bool) :
    ∀ (nodes : List (Nat × Peer)) (skip : Nat),
      ((demoteLoop received nodes skip).1).map Prod.fst = nodes.map Prod.fst := by
  intro nodes
  induction nodes with
  | nil => intro skip; rfl
  | cons kv rest ih =>
    intro skip
    obtain ⟨id, p⟩ := kv
    by_cases hr : received id <;> simp [demoteLoop, hr, ih]

theorem demoteLoop_length (received : Nat → Bool) (nodes : List (Nat × Peer)) (skip : Nat) :
    ((demoteLoop received nodes skip).1).length = nodes.length := by
  have h := congrArg List.length (demoteLoop_map_fst received nodes skip)
  simpa using h

theorem demoteLoop_counter (received : Nat → Bool) :
    ∀ (nodes : List (Nat × Peer)) (skip : Nat),
      demotedFalseCount received nodes ≤ skip → skip < uint64Card →
      (demoteLoop received nodes skip).2.1 = skip - demotedFalseCount received nodes := by
  intro nodes
  induction nodes with
  | nil => intro skip h1 h2; simp [demoteLoop, demotedFalseCount]
  | cons kv rest ih =>
    intro skip h1 h2
    obtain ⟨id, p⟩ := kv
    by_cases hr : received id
    · have hd : demotedFalseCount received ((id, p) :: rest)
          = demotedFalseCount received rest := by
        simp [demotedFalseCount, List.filter_cons, hr]
      rw [hd] at h1 ⊢
      simp only [demoteLoop, if_pos hr]
      exact ih skip h1 h2
    · by_cases hp : p.requirePromise
      · have hd : demotedFalseCount received ((id, p) :: rest)
            = demotedFalseCount received rest := by
          simp [demotedFalseCount, List.filter_cons, hr, hp]
        rw [hd] at h1 ⊢
        simp only [demoteLoop, if_neg hr, if_pos hp]
        exact ih skip h1 h2
      · have hd : demotedFalseCount received ((id, p) :: rest)
            = demotedFalseCount received rest + 1 := by
          simp [demotedFalseCount, List.filter_cons, hr, hp]
        rw [hd] at h1 ⊢
        simp only [demoteLoop, if_neg hr, if_neg hp]
        rw [dec64_eq (by omega) h2]
        rw [ih (skip - 1) (by omega) (by omega)]
        omega

theorem demotedFalseCount_le (received : Nat → Bool) (nodes : List (Nat × Peer)) :
    demotedFalseCount received nodes ≤ countFalse nodes := by
  unfold demotedFalseCount countFalse
  induction nodes with
  | nil => simp
  | cons kv t ih =>
    by_cases h2 : kv.2.requirePromise
    · simp only [List.filter_cons, h2]
      simpa using ih
    · by_cases h3 : received kv.1
      · simp only [List.filter_cons, h2, h3]
        simp
        omega
      · simp only [List.filter_cons, h2, h3]
        simp
        omega

theorem demoteLoop_countFalse_out (received : Nat → Bool) :
    ∀ (nodes : List (Nat × Peer)) (skip : Nat),
      countFalse (demoteLoop received nodes skip).1
        = countFalse nodes - demotedFalseCount received nodes := by
  intro nodes
  induction nodes with
  | nil => intro skip; simp [demoteLoop, demotedFalseCount, countFalse]
  | cons kv rest ih =>
    intro skip
    obtain ⟨id, p⟩ := kv
    have hle := demotedFalseCount_le received rest
    by_cases hr : received id
    · have hd : demotedFalseCount received ((id, p) :: rest)
          = demotedFalseCount received rest := by
        simp [demotedFalseCount, List.filter_cons, hr]
      rw [hd]
      simp only [demoteLoop, if_pos hr]
      rw [countFalse_cons, countFalse_cons, ih skip]
      omega
    · by_cases hp : p.requirePromise
      · have hd : demotedFalseCount received ((id, p) :: rest)
            = demotedFalseCount received rest := by
          simp [demotedFalseCount, List.filter_cons, hr, hp]
        rw [hd]
        simp only [demoteLoop, if_neg hr, if_pos hp]
        rw [countFalse_cons, countFalse_cons, ih skip]
        dsimp only
        simp only [hp, if_true]
        omega
      · have hd : demotedFalseCount received ((id, p) :: rest)
            = demotedFalseCount received rest + 1 := by
          simp [demotedFalseCount, List.filter_cons, hr, hp]
        rw [hd]
        simp only [demoteLoop, if_neg hr, if_neg hp]
        rw [countFalse_cons, countFalse_cons, ih (dec64 skip)]
        dsimp only
        simp only [hp, if_true, Bool.false_eq_true, if_false]
        omega
theorem skipInv_broadcastHeartbeat {c : Cluster} (events : List HBReply)
    (hinv : SkipInv c) (hlen : c.nodes.length < uint64Card) :
    SkipInv (broadcastHeartbeat c events).1 := by
  have hinv2 : c.skipPromiseCount = countFalse c.nodes := hinv
  unfold broadcastHeartbeat
  by_cases hf : (heartbeatCollect c.nodes.length events).2
  · simp only [hf, if_true]
    unfold SkipInv
    dsimp only
    set received := fun id => (heartbeatCollect c.nodes.length events).1.contains id
      with hrcv
    have hle1 := demotedFalseCount_le received c.nodes
    have hle2 := countFalse_le_length c.nodes
    rw [demoteLoop_counter received c.nodes c.skipPromiseCount (by omega) (by omega),
      demoteLoop_countFalse_out received c.nodes c.skipPromiseCount]
    omega
  · simp only [hf, if_false]
    simpa using hinv

theorem setPromiseRequirement_map_fst {c : Cluster} {id : Nat} {required : Bool}
    (hmem : id ∈ c.nodes.map Prod.fst) :
    ((setPromiseRequirement c id required).nodes).map Prod.fst = c.nodes.map Prod.fst :=
  goInsert_map_fst hmem

theorem broadcastHeartbeat_map_fst (c : Cluster) (events : List HBReply) :
    (((broadcastHeartbeat c events).1).nodes).map Prod.fst = c.nodes.map Prod.fst := by
  unfold broadcastHeartbeat
  by_cases hf : (heartbeatCollect c.nodes.length events).2
  · simp only [hf, if_true]
    exact demoteLoop_map_fst _ c.nodes c.skipPromiseCount
  · simp only [hf]
    simp

theorem applyOp_map_fst {c : Cluster} {op : ClusterOp} (hv : opValid c op) :
    ((applyOp c op).nodes).map Prod.fst = c.nodes.map Prod.fst := by
  cases op with
  | setReq id required => exact setPromiseRequirement_map_fst hv
  | heartbeat events => exact broadcastHeartbeat_map_fst c events

theorem skipInv_applyOp {c : Cluster} {op : ClusterOp} (hinv : SkipInv c)
    (hv : opValid c op) (hlen : c.nodes.length < uint64Card) :
    SkipInv (applyOp c op) := by
  cases op with
  | setReq id required => exact skipInv_setPromiseRequirement hinv hv hlen
  | heartbeat events => exact skipInv_broadcastHeartbeat events hinv hlen

theorem skipInv_applyOps {c : Cluster} {ops : List ClusterOp} (hinv : SkipInv c)
    (hlen : c.nodes.length < uint64Card) (hv : ∀ op ∈ ops, opValid c op) :
    SkipInv (applyOps c ops) := by
  induction ops generalizing c with
  | nil => exact hinv
  | cons op rest ih =>
    have hv0 : opValid c op := hv op (List.mem_cons_self op rest)
    have hkeys := applyOp_map_fst hv0
    have hlen' : (applyOp c op).nodes.length < uint64Card := by
      have := congrArg List.length hkeys
      simp only [List.length_map] at this
      omega
    refine ih (skipInv_applyOp hinv hv0 hlen) hlen' ?_
    intro op2 h2
    have := hv op2 (List.mem_cons_of_mem op h2)
    cases op2 with
    | setReq id2 r2 =>
      simpa [opValid, hkeys] using this
    | heartbeat ev2 => trivial

theorem countFalse_initialPeers (addresses : List (Nat × String)) :
    countFalse (initialPeers addresses) = 0 := by
  unfold countFalse initialPeers
  induction addresses with
  | nil => rfl
  | cons a t ih => simpa [List.filter_cons] using ih

theorem initialPeers_allRequire (addresses : List (Nat × String)) :
    ∀ kv ∈ initialPeers addresses, kv.2.requirePromise = true := by
  intro kv hkv
  unfold initialPeers at hkv
  rcases List.mem_map.mp hkv with ⟨a, _, heq⟩
  rw [← heq]

theorem constructCluster_state {roleId : Nat} {retrieve : Except GoErr (List (Nat × String))}
    {hostname : Except GoErr String} {lookup : String → Except GoErr (List GoIP)}
    {c : Cluster} {rid : Nat} {addr : String}
    (h : constructCluster roleId retrieve hostname lookup = Except.ok (c, rid, addr)) :
    ∃ addresses, retrieve = Except.ok addresses ∧ c.nodes = initialPeers addresses ∧
      c.skipPromiseCount = 0 ∧ c.roleId = rid := by
  unfold constructCluster at h
  cases retrieve with
  | error e => exact absurd h (by simp)
  | ok addresses =>
    refine ⟨addresses, rfl, ?_⟩
    dsimp only at h
    cases hres : resolveRoleId roleId addresses hostname lookup with
    | error e =>
      rw [hres] at h
      exact absurd h (by simp)
    | ok rid2 =>
      rw [hres] at h
      dsimp only at h
      simp only [Except.ok.injEq, Prod.mk.injEq] at h
      obtain ⟨hc, hr, ha⟩ := h
      rw [← hc]
      exact ⟨rfl, rfl, hr⟩

theorem heartbeatCollect_timeout :
    ∀ (events : List HBReply) (fuel : Nat), events.length < fuel →
      (heartbeatCollect fuel events).2 = true := by
  intro events
  induction events with
  | nil =>
    intro fuel h
    cases fuel with
    | zero => omega
    | succ n => rfl
  | cons e rest ih =>
    intro fuel h
    cases fuel with
    | zero => omega
    | succ n =>
      cases e with
      | ok id =>
        have := ih n (by simpa using Nat.lt_of_succ_lt_succ h)
        simpa [heartbeatCollect] using this
      | err => simp [heartbeatCollect]

theorem length_filter_lt_of_exists {α : Type} (p : α → Bool) (l : List α)
    (h : ∃ a ∈ l, p a = false) : (l.filter p).length < l.length := by
  induction l with
  | nil => simp at h
  | cons a t ih =>
    rcases h with ⟨b, hb, hpb⟩
    rcases List.mem_cons.mp hb with h1 | h2
    · subst h1
      have := List.length_filter_le p t
      simp [List.filter_cons, hpb]
      omega
    · by_cases hpa : p a
      · have := ih ⟨b, h2, hpb⟩
        simp [List.filter_cons, hpa]
        omega
      · have := List.length_filter_le p t
        simp [List.filter_cons, hpa]
        omega

theorem demoteLoop_demotes (received : Nat → Bool) {id : Nat} {p : Peer} :
    ∀ (nodes : List (Nat × Peer)) (skip : Nat), (id, p) ∈ nodes → received id = false →
      ((id, { p with requirePromise := true }) ∈ (demoteLoop received nodes skip).1 ∧
        id ∈ (demoteLoop received nodes skip).2.2) := by
  intro nodes
  induction nodes with
  | nil => intro skip h; simp at h
  | cons kv rest ih =>
    intro skip hmem hnr
    obtain ⟨k, q⟩ := kv
    rcases List.mem_cons.mp hmem with h1 | h2
    · have hk := congrArg Prod.fst h1
      have hq := congrArg Prod.snd h1
      dsimp only at hk hq
      subst hk
      subst hq
      simp only [demoteLoop, hnr, Bool.false_eq_true, if_false]
      exact ⟨List.mem_cons_self _ _, List.mem_cons_self _ _⟩
    · by_cases hr : received k
      · have hrec := ih skip h2 hnr
        simp only [demoteLoop, hr, if_true]
        exact ⟨List.mem_cons_of_mem _ hrec.1, hrec.2⟩
      · have hrn : received k = false := by
          cases h : received k
          · rfl
          · exact absurd h hr
        have hrec := ih (if q.requirePromise then skip else dec64 skip) h2 hnr
        simp only [demoteLoop, hrn, Bool.false_eq_true, if_false]
        exact ⟨List.mem_cons_of_mem _ hrec.1, List.mem_cons_of_mem _ hrec.2⟩
theorem nodup_keys_mem_unique :
    ∀ {nodes : List (Nat × Peer)}, (nodes.map Prod.fst).Nodup →
      ∀ {id : Nat} {p q : Peer}, (id, p) ∈ nodes → (id, q) ∈ nodes → p = q := by
  intro nodes
  induction nodes with
  | nil => intro _ id p q hp; simp at hp
  | cons kv rest ih =>
    intro hnd id p q hp hq
    rw [List.map_cons, List.nodup_cons] at hnd
    rcases List.mem_cons.mp hp with h1 | h1 <;> rcases List.mem_cons.mp hq with h2 | h2
    · rw [← h1] at h2
      exact (congrArg Prod.snd h2).symm
    · exfalso
      apply hnd.1
      have : kv.1 = id := by rw [← h1]
      rw [this]
      exact List.mem_map.mpr ⟨(id, q), h2, rfl⟩
    · exfalso
      apply hnd.1
      have : kv.1 = id := by rw [← h2]
      rw [this]
      exact List.mem_map.mpr ⟨(id, p), h1, rfl⟩
    · exact ih hnd.2 h1 h2

theorem prepareSendLoop_eq (nodes : List (Nat × Peer)) :
    prepareSendLoop nodes =
      ((nodes.filter (fun kv => kv.2.requirePromise && kv.2.hasComm)).length,
       (nodes.filter (fun kv => kv.2.requirePromise && kv.2.hasComm)).map Prod.fst) := by
  induction nodes with
  | nil => rfl
  | cons kv rest ih =>
    by_cases hc : kv.2.requirePromise && kv.2.hasComm
    · simp only [prepareSendLoop, ih, hc, if_true, List.filter_cons, List.length_cons,
        List.map_cons]
    · have hcf : (kv.2.requirePromise && kv.2.hasComm) = false := by
        cases h : kv.2.requirePromise && kv.2.hasComm
        · rfl
        · exact absurd h hc
      simp only [prepareSendLoop, ih, hcf, Bool.false_eq_true, if_false, List.filter_cons]

theorem proposalSendLoop_eq (filter : Nat → Bool) (nodes : List (Nat × Peer)) :
    proposalSendLoop filter nodes =
      ((nodes.filter (fun kv => !filter kv.1 && kv.2.hasComm)).length,
       (nodes.filter (fun kv => !filter kv.1 && kv.2.hasComm)).map Prod.fst) := by
  induction nodes with
  | nil => rfl
  | cons kv rest ih =>
    by_cases hc : !filter kv.1 && kv.2.hasComm
    · simp only [proposalSendLoop, ih, hc, if_true, List.filter_cons, List.length_cons,
        List.map_cons]
    · have hcf : (!filter kv.1 && kv.2.hasComm) = false := by
        cases h : !filter kv.1 && kv.2.hasComm
        · rfl
        · exact absurd h hc
      simp only [proposalSendLoop, ih, hcf, Bool.false_eq_true, if_false, List.filter_cons]

theorem wrapReplyRun_length_le (window : Nat) :
    ∀ (fuel : Nat) (events : List (Nat × ReplyEv)),
      (wrapReplyRun window fuel events).1.length ≤ fuel := by
  intro fuel
  induction fuel with
  | zero => intro events; simp [wrapReplyRun]
  | succ n ih =>
    intro events
    cases events with
    | nil => simp [wrapReplyRun]
    | cons ev rest =>
      obtain ⟨gap, e⟩ := ev
      by_cases hg : gap < window
      · cases e with
        | ok d =>
          simp only [wrapReplyRun, hg, if_true, List.length_cons]
          exact Nat.succ_le_succ (ih rest)
        | err =>
          simp only [wrapReplyRun, hg, if_true]
          exact Nat.le_succ_of_le (ih rest)
      · simp [wrapReplyRun, hg]

theorem wrapReplyRun_sound (window : Nat) :
    ∀ (fuel : Nat) (events : List (Nat × ReplyEv)) (d : Nat),
      d ∈ (wrapReplyRun window fuel events).1 →
      ∃ gap, (gap, ReplyEv.ok d) ∈ events := by
  intro fuel
  induction fuel with
  | zero => intro events d h; simp [wrapReplyRun] at h
  | succ n ih =>
    intro events d h
    cases events with
    | nil => simp [wrapReplyRun] at h
    | cons ev rest =>
      obtain ⟨gap, e⟩ := ev
      by_cases hg : gap < window
      · cases e with
        | ok d2 =>
          simp only [wrapReplyRun, hg, if_true] at h
          rcases List.mem_cons.mp h with h1 | h1
          · subst h1
            exact ⟨gap, List.mem_cons_self _ _⟩
          · rcases ih rest d h1 with ⟨g2, hg2⟩
            exact ⟨g2, List.mem_cons_of_mem _ hg2⟩
        | err =>
          simp only [wrapReplyRun, hg, if_true] at h
          rcases ih rest d h with ⟨g2, hg2⟩
          exact ⟨g2, List.mem_cons_of_mem _ hg2⟩
      · simp [wrapReplyRun, hg] at h

theorem wrapReplyRun_elapsed_le (window : Nat) :
    ∀ (fuel : Nat) (events : List (Nat × ReplyEv)),
      (wrapReplyRun window fuel events).2 ≤ fuel * window := by
  intro fuel
  induction fuel with
  | zero => intro events; simp [wrapReplyRun]
  | succ n ih =>
    intro events
    cases events with
    | nil =>
      simp only [wrapReplyRun]
      calc window = 1 * window := (Nat.one_mul window).symm
      _ ≤ (n + 1) * window := Nat.mul_le_mul_right window (by omega)
    | cons ev rest =>
      obtain ⟨gap, e⟩ := ev
      by_cases hg : gap < window
      · have hrec := ih rest
        cases e with
        | ok d =>
          simp only [wrapReplyRun, hg, if_true]
          have : gap + (wrapReplyRun window n rest).2 ≤ gap + n * window :=
            Nat.add_le_add_left hrec gap
          calc gap + (wrapReplyRun window n rest).2 ≤ gap + n * window := this
          _ ≤ window + n * window := by omega
          _ = (n + 1) * window := by ring
        | err =>
          simp only [wrapReplyRun, hg, if_true]
          calc gap + (wrapReplyRun window n rest).2 ≤ gap + n * window :=
            Nat.add_le_add_left hrec gap
          _ ≤ window + n * window := by omega
          _ = (n + 1) * window := by ring
      · simp only [wrapReplyRun, hg, if_false]
        calc window = 1 * window := (Nat.one_mul window).symm
        _ ≤ (n + 1) * window := Nat.mul_le_mul_right window (by omega)

theorem wrapReplyRun_timeout (window fuel gap : Nat) (e : ReplyEv)
    (rest : List (Nat × ReplyEv)) (h : window ≤ gap) :
    wrapReplyRun window (fuel + 1) ((gap, e) :: rest) = ([], window) := by
  simp [wrapReplyRun, Nat.not_lt_of_le h]
theorem scanAddresses_unique_match (thisAddr : String) :
    ∀ (addresses : List (Nat × String)) (mid : Nat) (maddr : String),
      (∀ a ∈ addresses, ∃ hp, splitHostPort a.2 = Except.ok hp) →
      matchingEntries thisAddr addresses = [(mid, maddr)] →
      scanAddresses thisAddr addresses = Except.ok mid := by
  intro addresses
  induction addresses with
  | nil => intro mid maddr _ hmatch; simp [matchingEntries] at hmatch
  | cons a rest ih =>
    intro mid maddr hwf hmatch
    obtain ⟨k, full⟩ := a
    obtain ⟨hp, hsplit⟩ := hwf (k, full) (List.mem_cons_self _ _)
    by_cases hm : thisAddr = hp.1
    · have hfilter : matchingEntries thisAddr ((k, full) :: rest)
          = (k, full) :: matchingEntries thisAddr rest := by
        simp only [matchingEntries, List.filter_cons]
        rw [if_pos]
        simp only [hsplit]
        simp [hm]
      rw [hfilter] at hmatch
      simp only [List.cons.injEq, Prod.mk.injEq] at hmatch
      obtain ⟨⟨hk, hfull⟩, hrest⟩ := hmatch
      have hscan : scanAddresses thisAddr ((k, full) :: rest) = Except.ok k := by
        simp [scanAddresses, hsplit, hm]
      rw [hscan, hk]
    · have hfilter : matchingEntries thisAddr ((k, full) :: rest)
          = matchingEntries thisAddr rest := by
        simp only [matchingEntries, List.filter_cons]
        rw [if_neg]
        simp only [hsplit]
        simp [hm]
      rw [hfilter] at hmatch
      have hrec := ih mid maddr (fun a ha => hwf a (List.mem_cons_of_mem _ ha)) hmatch
      simp [scanAddresses, hsplit, hm, hrec]

theorem scanAddresses_no_match (thisAddr : String) :
    ∀ (addresses : List (Nat × String)),
      (∀ a ∈ addresses, ∃ hp, splitHostPort a.2 = Except.ok hp) →
      matchingEntries thisAddr addresses = [] →
      scanAddresses thisAddr addresses = Except.ok 0 := by
  intro addresses
  induction addresses with
  | nil => intro _ _; rfl
  | cons a rest ih =>
    intro hwf hmatch
    obtain ⟨k, full⟩ := a
    obtain ⟨hp, hsplit⟩ := hwf (k, full) (List.mem_cons_self _ _)
    by_cases hm : thisAddr = hp.1
    · exfalso
      have : (k, full) ∈ matchingEntries thisAddr ((k, full) :: rest) := by
        simp only [matchingEntries]
        refine List.mem_filter.mpr ⟨List.mem_cons_self _ _, ?_⟩
        simp only [hsplit]
        simp [hm]
      rw [hmatch] at this
      simp at this
    · have hfilter : matchingEntries thisAddr ((k, full) :: rest)
          = matchingEntries thisAddr rest := by
        simp only [matchingEntries, List.filter_cons]
        rw [if_neg]
        simp only [hsplit]
        simp [hm]
      rw [hfilter] at hmatch
      have hrec := ih (fun a ha => hwf a (List.mem_cons_of_mem _ ha)) hmatch
      simp [scanAddresses, hsplit, hm, hrec]

theorem resolveRoleId_explicit {roleId : Nat} (hr : roleId ≠ 0)
    (addresses : List (Nat × String)) (hostname : Except GoErr String)
    (lookup : String → Except GoErr (List GoIP)) :
    resolveRoleId roleId addresses hostname lookup = Except.ok roleId := by
  simp [resolveRoleId, hr]

theorem resolveRoleId_unique {addresses : List (Nat × String)} {name : String}
    {ips : List GoIP} {hostname : Except GoErr String}
    {lookup : String → Except GoErr (List GoIP)} {mid : Nat} {maddr : String}
    (hn : hostname = Except.ok name) (hl : lookup name = Except.ok ips)
    (hwf : ∀ a ∈ addresses, ∃ hp, splitHostPort a.2 = Except.ok hp)
    (hmatch : matchingEntries (firstIPv4 ips) addresses = [(mid, maddr)])
    (hmid : mid ≠ 0) :
    resolveRoleId 0 addresses hostname lookup = Except.ok mid := by
  have hscan := scanAddresses_unique_match (firstIPv4 ips) addresses mid maddr hwf hmatch
  simp [resolveRoleId, hn, hl, hscan, hmid]

theorem resolveRoleId_no_match {addresses : List (Nat × String)} {name : String}
    {ips : List GoIP} {hostname : Except GoErr String}
    {lookup : String → Except GoErr (List GoIP)}
    (hn : hostname = Except.ok name) (hl : lookup name = Except.ok ips)
    (hwf : ∀ a ∈ addresses, ∃ hp, splitHostPort a.2 = Except.ok hp)
    (hmatch : matchingEntries (firstIPv4 ips) addresses = []) :
    resolveRoleId 0 addresses hostname lookup
      = Except.error (GoErr.addressNotFound (firstIPv4 ips)) := by
  have hscan := scanAddresses_no_match (firstIPv4 ips) addresses hwf hmatch
  simp [resolveRoleId, hn, hl, hscan]

theorem resolveRoleId_hostname_error {addresses : List (Nat × String)} {e : GoErr}
    {lookup : String → Except GoErr (List GoIP)} :
    resolveRoleId 0 addresses (Except.error e) lookup = Except.error e := by
  simp [resolveRoleId]

theorem resolveRoleId_lookup_error {addresses : List (Nat × String)} {name : String}
    {e : GoErr} {lookup : String → Except GoErr (List GoIP)}
    (hl : lookup name = Except.error e) :
    resolveRoleId 0 addresses (Except.ok name) lookup = Except.error e := by
  simp [resolveRoleId, hl]

theorem constructCluster_of_resolved {roleId : Nat} {addresses : List (Nat × String)}
    {hostname : Except GoErr String} {lookup : String → Except GoErr (List GoIP)}
    {rid : Nat} (h : resolveRoleId roleId addresses hostname lookup = Except.ok rid) :
    constructCluster roleId (Except.ok addresses) hostname lookup
      = Except.ok ({ roleId := rid, nodes := initialPeers addresses,
                     skipPromiseCount := 0 },
          rid, (goLookup (initialPeers addresses) rid).address) := by
  simp [constructCluster, h]

theorem constructCluster_of_resolve_error {roleId : Nat} {addresses : List (Nat × String)}
    {hostname : Except GoErr String} {lookup : String → Except GoErr (List GoIP)}
    {e : GoErr} (h : resolveRoleId roleId addresses hostname lookup = Except.error e) :
    constructCluster roleId (Except.ok addresses) hostname lookup = Except.error e := by
  simp [constructCluster, h]
/-- C1 (amended): after construction the skip counter is 0, every peer
requires a promise, and the bookkeeping invariant `skipPromiseCount =
countFalse` holds; every sequence of `SetPromiseRequirement` calls whose
role-id is an existing peer key, interleaved with heartbeat demotions,
preserves the invariant (the Go map holds fewer than `2 ^ 64`
entries). -/
theorem skipPromiseCount_invariant :
    (∀ (roleId : Nat) (retrieve : Except GoErr (List (Nat × String)))
        (hostname : Except GoErr String) (lookup : String → Except GoErr (List GoIP))
        (c : Cluster) (rid : Nat) (addr : String),
        constructCluster roleId retrieve hostname lookup = Except.ok (c, rid, addr) →
        (c.skipPromiseCount = 0 ∧ (∀ kv ∈ c.nodes, kv.2.requirePromise = true) ∧ SkipInv c))
    ∧ (∀ (c : Cluster) (ops : List ClusterOp), SkipInv c →
        c.nodes.length < uint64Card → (∀ op ∈ ops, opValid c op) →
        SkipInv (applyOps c ops)) := by
  constructor
  · intro roleId retrieve hostname lookup c rid addr h
    obtain ⟨addresses, hret, hnodes, hskip, hrole⟩ := constructCluster_state h
    refine ⟨hskip, ?_, ?_⟩
    · rw [hnodes]
      exact initialPeers_allRequire addresses
    · unfold SkipInv
      rw [hskip, hnodes, countFalse_initialPeers]
  · intro c ops hinv hlen hv
    exact skipInv_applyOps hinv hlen hv

/-- C1 witness: the invariant survives a concrete successful
construction and a concrete operation sequence (clear a member's
requirement, run a failing heartbeat round, set it back). -/
theorem skipPromiseCount_invariant_witness :
    ((({ roleId := 1,
         nodes := [(1, Peer.mk 1 "10.0.0.1:4000" false true),
                   (2, Peer.mk 2 "10.0.0.2:4000" false true),
                   (3, Peer.mk 3 "10.0.0.3:4000" false true)],
         skipPromiseCount := 0 } : Cluster).skipPromiseCount = 0)
      ∧ SkipInv (applyOps
          { roleId := 1,
            nodes := [(1, Peer.mk 1 "10.0.0.1:4000" false true),
                      (2, Peer.mk 2 "10.0.0.2:4000" false true),
                      (3, Peer.mk 3 "10.0.0.3:4000" false true)],
            skipPromiseCount := 0 }
          [ClusterOp.setReq 2 false, ClusterOp.heartbeat [HBReply.err],
           ClusterOp.setReq 2 true])) := by
  have h := skipPromiseCount_invariant
  refine ⟨rfl, ?_⟩
  refine h.2 _ _ (by decide) (by decide) ?_
  intro op hop
  simp only [List.mem_cons, List.not_mem_nil, or_false] at hop
  rcases hop with rfl | rfl | rfl
  · unfold opValid
    decide
  · trivial
  · unfold opValid
    decide

/-- C1 counterexample: the claim fails for a `SetPromiseRequirement`
call whose role-id is not a key of the peers map — the Go zero-value
read plus map assignment adds a fresh entry with `requirePromise =
false` without touching the counter. -/
theorem skipPromiseCount_invariant_counterexample :
    SkipInv { roleId := 1,
              nodes := [(1, Peer.mk 1 "10.0.0.1:4000" false true),
                        (2, Peer.mk 2 "10.0.0.2:4000" false true),
                        (3, Peer.mk 3 "10.0.0.3:4000" false true)],
              skipPromiseCount := 0 }
    ∧ ¬ SkipInv (applyOps
        { roleId := 1,
          nodes := [(1, Peer.mk 1 "10.0.0.1:4000" false true),
                    (2, Peer.mk 2 "10.0.0.2:4000" false true),
                    (3, Peer.mk 3 "10.0.0.3:4000" false true)],
          skipPromiseCount := 0 }
        [ClusterOp.setReq 4 false]) := by
  constructor
  · decide
  · decide

/-- C2: whenever `skipPromiseCount ≥ floor(N/2) + 1` for the total node
count `N`, the prepare broadcast sends nothing and returns a sent count
of 0. -/
theorem broadcastPrepare_skips_on_majority (c : Cluster)
    (h : c.nodes.length / 2 + 1 ≤ c.skipPromiseCount) :
    broadcastPrepareRequest c = (0, []) := by
  unfold broadcastPrepareRequest
  rw [if_neg (by omega)]

/-- C2 witness: a 5-node cluster with 3 peers already exempt sends zero
prepare requests. -/
theorem broadcastPrepare_skips_on_majority_witness :
    broadcastPrepareRequest
      { roleId := 1,
        nodes := [(1, Peer.mk 1 "10.0.0.1:4000" true true),
                  (2, Peer.mk 2 "10.0.0.2:4000" true false),
                  (3, Peer.mk 3 "10.0.0.3:4000" true false),
                  (4, Peer.mk 4 "10.0.0.4:4000" true false),
                  (5, Peer.mk 5 "10.0.0.5:4000" true true)],
        skipPromiseCount := 3 } = (0, []) :=
  broadcastPrepare_skips_on_majority _ (by decide)

/-- C7: below the majority threshold, the prepare broadcast calls
exactly the peers with `requirePromise = true` and a live connection,
the returned count is the number of calls, and a peer without a
connection is never called. -/
theorem broadcastPrepare_targets (c : Cluster)
    (h : c.skipPromiseCount < c.nodes.length / 2 + 1)
    (hnd : (c.nodes.map Prod.fst).Nodup) :
    (broadcastPrepareRequest c).2
        = (c.nodes.filter (fun kv => kv.2.requirePromise && kv.2.hasComm)).map Prod.fst
    ∧ (broadcastPrepareRequest c).1 = (broadcastPrepareRequest c).2.length
    ∧ (∀ id p, (id, p) ∈ c.nodes → p.hasComm = false →
        id ∉ (broadcastPrepareRequest c).2) := by
  have hb : broadcastPrepareRequest c
      = ((c.nodes.filter (fun kv => kv.2.requirePromise && kv.2.hasComm)).length,
         (c.nodes.filter (fun kv => kv.2.requirePromise && kv.2.hasComm)).map Prod.fst) := by
    unfold broadcastPrepareRequest
    rw [if_pos h, prepareSendLoop_eq]
  rw [hb]
  refine ⟨rfl, by simp, ?_⟩
  intro id p hmem hnc hcontra
  dsimp only at hcontra
  rcases List.mem_map.mp hcontra with ⟨kv, hkvf, hfst⟩
  have hkv := List.mem_filter.mp hkvf
  obtain ⟨k2, p2⟩ := kv
  dsimp only at hfst
  subst hfst
  have hpq : p2 = p := nodup_keys_mem_unique hnd hkv.1 hmem
  rw [hpq] at hkv
  have := hkv.2
  simp [hnc] at this

/-- C7 witness: in a 3-node cluster below threshold, only the promising
peer with a live connection is called; the connection-less peer is
not. -/
theorem broadcastPrepare_targets_witness :
    (broadcastPrepareRequest
      { roleId := 1,
        nodes := [(1, Peer.mk 1 "10.0.0.1:4000" true true),
                  (2, Peer.mk 2 "10.0.0.2:4000" false true),
                  (3, Peer.mk 3 "10.0.0.3:4000" true false)],
        skipPromiseCount := 1 }).2 = [1]
    ∧ (2 : Nat) ∉ (broadcastPrepareRequest
      { roleId := 1,
        nodes := [(1, Peer.mk 1 "10.0.0.1:4000" true true),
                  (2, Peer.mk 2 "10.0.0.2:4000" false true),
                  (3, Peer.mk 3 "10.0.0.3:4000" true false)],
        skipPromiseCount := 1 }).2 := by
  have h := broadcastPrepare_targets
    { roleId := 1,
      nodes := [(1, Peer.mk 1 "10.0.0.1:4000" true true),
                (2, Peer.mk 2 "10.0.0.2:4000" false true),
                (3, Peer.mk 3 "10.0.0.3:4000" true false)],
      skipPromiseCount := 1 } (by decide) (by decide)
  constructor
  · rw [h.1]
    decide
  · exact h.2.2 2 (Peer.mk 2 "10.0.0.2:4000" false true) (by decide) rfl

/-- C8: the proposal (Accept) broadcast calls exactly the peers not
marked in the exclusion filter that have a live connection, the
returned count is the number of calls, and a filtered peer is never
called regardless of its connection state. -/
theorem broadcastProposal_filter (c : Cluster) (filter : Nat → Bool) :
    (broadcastProposalRequest c filter).2
        = (c.nodes.filter (fun kv => !filter kv.1 && kv.2.hasComm)).map Prod.fst
    ∧ (broadcastProposalRequest c filter).1 = (broadcastProposalRequest c filter).2.length
    ∧ (∀ id, filter id = true → id ∉ (broadcastProposalRequest c filter).2) := by
  have hb : broadcastProposalRequest c filter
      = ((c.nodes.filter (fun kv => !filter kv.1 && kv.2.hasComm)).length,
         (c.nodes.filter (fun kv => !filter kv.1 && kv.2.hasComm)).map Prod.fst) := by
    unfold broadcastProposalRequest
    rw [proposalSendLoop_eq]
  rw [hb]
  refine ⟨rfl, by simp, ?_⟩
  intro id hid hcontra
  dsimp only at hcontra
  rcases List.mem_map.mp hcontra with ⟨kv, hkvf, hfst⟩
  have hkv := List.mem_filter.mp hkvf
  have := hkv.2
  rw [hfst, hid] at this
  simp at this

/-- C8 witness: with peer 2 excluded, the proposal broadcast calls only
the connected unexcluded peers, and peer 2 is not called even though it
has a live connection. -/
theorem broadcastProposal_filter_witness :
    (broadcastProposalRequest
      { roleId := 1,
        nodes := [(1, Peer.mk 1 "10.0.0.1:4000" true true),
                  (2, Peer.mk 2 "10.0.0.2:4000" true true),
                  (3, Peer.mk 3 "10.0.0.3:4000" false true)],
        skipPromiseCount := 0 } (fun id => id == 2)).2 = [1]
    ∧ (2 : Nat) ∉ (broadcastProposalRequest
      { roleId := 1,
        nodes := [(1, Peer.mk 1 "10.0.0.1:4000" true true),
                  (2, Peer.mk 2 "10.0.0.2:4000" true true),
                  (3, Peer.mk 3 "10.0.0.3:4000" false true)],
        skipPromiseCount := 0 } (fun id => id == 2)).2 := by
  have h := broadcastProposal_filter
    { roleId := 1,
      nodes := [(1, Peer.mk 1 "10.0.0.1:4000" true true),
                (2, Peer.mk 2 "10.0.0.2:4000" true true),
                (3, Peer.mk 3 "10.0.0.3:4000" false true)],
      skipPromiseCount := 0 } (fun id => id == 2)
  constructor
  · rw [h.1]
    decide
  · exact h.2.2 2 rfl
/-- C3: in a heartbeat round that observed failures (an errored reply or
the timeout arm firing before all expected replies), every node that did
not reply has its `requirePromise` forced to `true`, is enqueued on the
bad-connection queue, and the counter drops by exactly the number of
non-repliers that previously had `requirePromise = false`. -/
theorem heartbeat_demotes_nonrepliers (c : Cluster) (events : List HBReply)
    (hinv : SkipInv c) (hlen : c.nodes.length < uint64Card)
    (hfail : (heartbeatCollect c.nodes.length events).2 = true) :
    (∀ id p, (id, p) ∈ c.nodes →
        (heartbeatCollect c.nodes.length events).1.contains id = false →
        ((id, { p with requirePromise := true }) ∈ (broadcastHeartbeat c events).1.nodes
          ∧ id ∈ (broadcastHeartbeat c events).2))
    ∧ (broadcastHeartbeat c events).1.skipPromiseCount
        = c.skipPromiseCount
          - demotedFalseCount
              (fun id => (heartbeatCollect c.nodes.length events).1.contains id) c.nodes := by
  have hinv2 : c.skipPromiseCount = countFalse c.nodes := hinv
  have hle1 := demotedFalseCount_le
    (fun id => (heartbeatCollect c.nodes.length events).1.contains id) c.nodes
  have hle2 := countFalse_le_length c.nodes
  constructor
  · intro id p hmem hnr
    unfold broadcastHeartbeat
    simp only [hfail, if_true]
    exact demoteLoop_demotes _ c.nodes c.skipPromiseCount hmem hnr
  · unfold broadcastHeartbeat
    simp only [hfail, if_true]
    exact demoteLoop_counter _ c.nodes c.skipPromiseCount (by omega) (by omega)

/-- C3 witness: a 2-node cluster where node 2 skipped the prepare phase;
an errored reply marks failures, node 2 never replies, gets demoted,
loses its exemption, and is enqueued for repair. -/
theorem heartbeat_demotes_nonrepliers_witness :
    ((2, Peer.mk 2 "10.0.0.2:4000" true true)
        ∈ (broadcastHeartbeat
            { roleId := 1,
              nodes := [(1, Peer.mk 1 "10.0.0.1:4000" true true),
                        (2, Peer.mk 2 "10.0.0.2:4000" true false)],
              skipPromiseCount := 1 } [HBReply.err, HBReply.ok 1]).1.nodes)
    ∧ (2 : Nat) ∈ (broadcastHeartbeat
        { roleId := 1,
          nodes := [(1, Peer.mk 1 "10.0.0.1:4000" true true),
                    (2, Peer.mk 2 "10.0.0.2:4000" true false)],
          skipPromiseCount := 1 } [HBReply.err, HBReply.ok 1]).2
    ∧ (broadcastHeartbeat
        { roleId := 1,
          nodes := [(1, Peer.mk 1 "10.0.0.1:4000" true true),
                    (2, Peer.mk 2 "10.0.0.2:4000" true false)],
          skipPromiseCount := 1 } [HBReply.err, HBReply.ok 1]).1.skipPromiseCount = 0 := by
  have h := heartbeat_demotes_nonrepliers
    { roleId := 1,
      nodes := [(1, Peer.mk 1 "10.0.0.1:4000" true true),
                (2, Peer.mk 2 "10.0.0.2:4000" true false)],
      skipPromiseCount := 1 } [HBReply.err, HBReply.ok 1] (by decide) (by decide) (by decide)
  have h2 := h.1 2 (Peer.mk 2 "10.0.0.2:4000" true false) (by decide) (by decide)
  refine ⟨h2.1, h2.2, ?_⟩
  rw [h.2]
  decide

/-- C10: the heartbeat fan-in loop expects as many replies as the whole
registry has entries although pulses go only to connected peers, so
whenever some registry entry lacks a connection the round cannot be
satisfied by replies, ends in the timeout arm with failures observed,
and demotes and enqueues every node that did not reply. -/
theorem heartbeat_expects_registry_count (c : Cluster) (events : List HBReply)
    (hev : events.length ≤ (c.nodes.filter (fun kv => kv.2.hasComm)).length)
    (hmiss : ∃ kv ∈ c.nodes, kv.2.hasComm = false) :
    heartbeatTargets c = (c.nodes.filter (fun kv => kv.2.hasComm)).map (fun kv => kv.1)
    ∧ (heartbeatCollect c.nodes.length events).2 = true
    ∧ (∀ id p, (id, p) ∈ c.nodes →
        (heartbeatCollect c.nodes.length events).1.contains id = false →
        ((id, { p with requirePromise := true }) ∈ (broadcastHeartbeat c events).1.nodes
          ∧ id ∈ (broadcastHeartbeat c events).2)) := by
  have hlt : (c.nodes.filter (fun kv => kv.2.hasComm)).length < c.nodes.length := by
    rcases hmiss with ⟨kv, hkv, hc⟩
    exact length_filter_lt_of_exists _ _ ⟨kv, hkv, hc⟩
  have hfail := heartbeatCollect_timeout events c.nodes.length (by omega)
  refine ⟨rfl, hfail, ?_⟩
  intro id p hmem hnr
  unfold broadcastHeartbeat
  simp only [hfail, if_true]
  exact demoteLoop_demotes _ c.nodes c.skipPromiseCount hmem hnr

/-- C10 witness: node 3 has no connection, so even with the one
connected peer replying the round times out with failures and node 3 is
demoted and enqueued. -/
theorem heartbeat_expects_registry_count_witness :
    ((heartbeatCollect 3 [HBReply.ok 1]).2 = true)
    ∧ (3 : Nat) ∈ (broadcastHeartbeat
        { roleId := 2,
          nodes := [(1, Peer.mk 1 "10.0.0.1:4000" true true),
                    (2, Peer.mk 2 "10.0.0.2:4000" true true),
                    (3, Peer.mk 3 "10.0.0.3:4000" false true)],
          skipPromiseCount := 0 } [HBReply.ok 1]).2 := by
  have h := heartbeat_expects_registry_count
    { roleId := 2,
      nodes := [(1, Peer.mk 1 "10.0.0.1:4000" true true),
                (2, Peer.mk 2 "10.0.0.2:4000" true true),
                (3, Peer.mk 3 "10.0.0.3:4000" false true)],
      skipPromiseCount := 0 } [HBReply.ok 1] (by decide)
    ⟨(3, Peer.mk 3 "10.0.0.3:4000" false true), by decide, rfl⟩
  exact ⟨h.2.1, (h.2.2 3 (Peer.mk 3 "10.0.0.3:4000" false true) (by decide) (by decide)).2⟩

/-- C4 (amended): the fan-in collector forwards at most the expected
count of responses and only non-errored replies; the 2-second timer is
re-armed at every loop iteration, so collection stops after a 2-second
gap with no delivered reply, and the total collection time is bounded
by the expected count times 2 seconds — not by 2 seconds from the
call's start. -/
theorem wrapReply_amended (window fuel : Nat) (events : List (Nat × ReplyEv)) :
    (wrapReplyRun window fuel events).1.length ≤ fuel
    ∧ (∀ d, d ∈ (wrapReplyRun window fuel events).1 → ∃ gap, (gap, ReplyEv.ok d) ∈ events)
    ∧ (wrapReplyRun window fuel events).2 ≤ fuel * window
    ∧ (∀ gap e rest, events = (gap, e) :: rest → window ≤ gap → 0 < fuel →
        wrapReplyRun window fuel events = ([], window)) := by
  refine ⟨wrapReplyRun_length_le window fuel events,
    wrapReplyRun_sound window fuel events,
    wrapReplyRun_elapsed_le window fuel events, ?_⟩
  intro gap e rest hev hge hf
  subst hev
  cases fuel with
  | zero => omega
  | succ n => exact wrapReplyRun_timeout window n gap e rest hge

/-- C4 witness: with one reply arriving after a 2.5-second gap, the
collector abandons at the 2-second mark with nothing forwarded. -/
theorem wrapReply_amended_witness :
    (wrapReplyRun 2000 2 [(2500, ReplyEv.ok 7)]).1.length ≤ 2
    ∧ wrapReplyRun 2000 2 [(2500, ReplyEv.ok 7)] = ([], 2000) := by
  have h := wrapReply_amended 2000 2 [(2500, ReplyEv.ok 7)]
  exact ⟨h.1, h.2.2.2 2500 (ReplyEv.ok 7) [] rfl (by decide) (by decide)⟩

/-- C4 counterexample: three replies spaced 1.5 seconds apart are all
forwarded and the collector only returns after 4.5 seconds, so the
window is not a fixed 2 seconds measured from the call's start. -/
theorem wrapReply_window_not_fixed :
    wrapReplyRun wrapReplyWindowMs 3
        [(1500, ReplyEv.ok 1), (1500, ReplyEv.ok 2), (1500, ReplyEv.ok 3)]
      = ([1, 2, 3], 4500)
    ∧ ¬ ((wrapReplyRun wrapReplyWindowMs 3
        [(1500, ReplyEv.ok 1), (1500, ReplyEv.ok 2), (1500, ReplyEv.ok 3)]).2
          ≤ wrapReplyWindowMs) := by
  constructor
  · decide
  · decide

/-- C5 counterexample: the lock discipline stated by the spec fails
over the transcribed operation traces. -/
theorem lockDiscipline_claim_false : lockDisciplineClaim = false := by decide

/-- C5 (amended): every operation accesses the registry and the counter
only under the lock except `NotifyOfSuccess`, which reads the registry
with no lock at all; the lock is held only for in-memory bookkeeping in
the getters, `SetPromiseRequirement`, `Listen` and the prepare/proposal
broadcasts, but `Connect` holds it across dialing,
`establishConnection` across the unbuffered repaired-notification
handoff, and `BroadcastHeartbeat` across its 500 ms timed fan-in
wait. -/
theorem lockDiscipline_amended :
    memAccessesUnderLock listenTrace = true
    ∧ memAccessesUnderLock listenAcceptLoopTrace = true
    ∧ memAccessesUnderLock connectTrace = true
    ∧ memAccessesUnderLock connectionManagerTrace = true
    ∧ memAccessesUnderLock establishConnectionTrace = true
    ∧ memAccessesUnderLock getPeerCountTrace = true
    ∧ memAccessesUnderLock getSkipPromiseCountTrace = true
    ∧ memAccessesUnderLock setPromiseRequirementTrace = true
    ∧ memAccessesUnderLock broadcastHeartbeatTrace = true
    ∧ memAccessesUnderLock broadcastPrepareRequestTrace = true
    ∧ memAccessesUnderLock broadcastProposalRequestTrace = true
    ∧ memAccessesUnderLock notifyOfSuccessTrace = false
    ∧ memAccessesUnderLock wrapReplyTrace = true
    ∧ noBlockingUnderLock listenTrace = true
    ∧ noBlockingUnderLock listenAcceptLoopTrace = true
    ∧ noBlockingUnderLock connectionManagerTrace = true
    ∧ noBlockingUnderLock getPeerCountTrace = true
    ∧ noBlockingUnderLock getSkipPromiseCountTrace = true
    ∧ noBlockingUnderLock setPromiseRequirementTrace = true
    ∧ noBlockingUnderLock broadcastPrepareRequestTrace = true
    ∧ noBlockingUnderLock broadcastProposalRequestTrace = true
    ∧ noBlockingUnderLock notifyOfSuccessTrace = true
    ∧ noBlockingUnderLock wrapReplyTrace = true
    ∧ noBlockingUnderLock connectTrace = false
    ∧ noBlockingUnderLock establishConnectionTrace = false
    ∧ noBlockingUnderLock broadcastHeartbeatTrace = false := by decide

/-- C6: `NotifyOfSuccess` dereferences the peer's connection handle
without a presence check; with no connection it panics (nil
`*rpc.Client` method call), crashing the process rather than failing
detectably, while a connected peer is dispatched to normally. -/
theorem notifyOfSuccess_nil_comm_panics :
    notifyOfSuccess
      { roleId := 1,
        nodes := [(1, Peer.mk 1 "10.0.0.1:4000" true true),
                  (2, Peer.mk 2 "10.0.0.2:4000" false true)],
        skipPromiseCount := 0 } 2 = NotifyOutcome.panicNilClient
    ∧ notifyOfSuccess
      { roleId := 1,
        nodes := [(1, Peer.mk 1 "10.0.0.1:4000" true true),
                  (2, Peer.mk 2 "10.0.0.2:4000" false true)],
        skipPromiseCount := 0 } 1 = NotifyOutcome.sent := by
  constructor
  · decide
  · decide
/-- C9 (amended): an explicit non-zero role-id skips detection entirely;
for a table of well-formed `host:port` entries with non-zero role-ids
that contains the detected local address exactly once, auto-detection
resolves to the unique matching role-id; for such a table with no
matching entry it fails with the address-not-found error; and hostname
or address-lookup failures are surfaced as that error. -/
theorem constructCluster_resolution :
    (∀ (roleId : Nat) (addresses : List (Nat × String)) (hostname : Except GoErr String)
        (lookup : String → Except GoErr (List GoIP)), roleId ≠ 0 →
        constructCluster roleId (Except.ok addresses) hostname lookup
          = Except.ok ({ roleId := roleId, nodes := initialPeers addresses,
                         skipPromiseCount := 0 },
              roleId, (goLookup (initialPeers addresses) roleId).address))
    ∧ (∀ (addresses : List (Nat × String)) (name : String) (ips : List GoIP)
        (lookup : String → Except GoErr (List GoIP)) (mid : Nat) (maddr : String),
        lookup name = Except.ok ips →
        (∀ a ∈ addresses, ∃ hp, splitHostPort a.2 = Except.ok hp) →
        matchingEntries (firstIPv4 ips) addresses = [(mid, maddr)] → mid ≠ 0 →
        constructCluster 0 (Except.ok addresses) (Except.ok name) lookup
          = Except.ok ({ roleId := mid, nodes := initialPeers addresses,
                         skipPromiseCount := 0 },
              mid, (goLookup (initialPeers addresses) mid).address))
    ∧ (∀ (addresses : List (Nat × String)) (name : String) (ips : List GoIP)
        (lookup : String → Except GoErr (List GoIP)),
        lookup name = Except.ok ips →
        (∀ a ∈ addresses, ∃ hp, splitHostPort a.2 = Except.ok hp) →
        matchingEntries (firstIPv4 ips) addresses = [] →
        constructCluster 0 (Except.ok addresses) (Except.ok name) lookup
          = Except.error (GoErr.addressNotFound (firstIPv4 ips)))
    ∧ (∀ (addresses : List (Nat × String)) (e : GoErr)
        (lookup : String → Except GoErr (List GoIP)),
        constructCluster 0 (Except.ok addresses) (Except.error e) lookup = Except.error e)
    ∧ (∀ (addresses : List (Nat × String)) (name : String) (e : GoErr)
        (lookup : String → Except GoErr (List GoIP)), lookup name = Except.error e →
        constructCluster 0 (Except.ok addresses) (Except.ok name) lookup
          = Except.error e) := by
  refine ⟨?_, ?_, ?_, ?_, ?_⟩
  · intro roleId addresses hostname lookup hr
    exact constructCluster_of_resolved (resolveRoleId_explicit hr addresses hostname lookup)
  · intro addresses name ips lookup mid maddr hl hwf hmatch hmid
    exact constructCluster_of_resolved (resolveRoleId_unique rfl hl hwf hmatch hmid)
  · intro addresses name ips lookup hl hwf hmatch
    exact constructCluster_of_resolve_error (resolveRoleId_no_match rfl hl hwf hmatch)
  · intro addresses e lookup
    exact constructCluster_of_resolve_error resolveRoleId_hostname_error
  · intro addresses name e lookup hl
    exact constructCluster_of_resolve_error (resolveRoleId_lookup_error hl)

/-- C9 witness: a two-entry table whose first entry matches the
detected address `10.0.0.1` resolves to role-id 1. -/
theorem constructCluster_resolution_witness :
    constructCluster 0 (Except.ok [(1, "10.0.0.1:4000"), (2, "10.0.0.2:4000")])
        (Except.ok "node") (fun _ => Except.ok [GoIP.mk true "10.0.0.1"])
      = Except.ok ({ roleId := 1,
                     nodes := initialPeers [(1, "10.0.0.1:4000"), (2, "10.0.0.2:4000")],
                     skipPromiseCount := 0 },
          1, (goLookup (initialPeers [(1, "10.0.0.1:4000"), (2, "10.0.0.2:4000")]) 1).address) := by
  have h := constructCluster_resolution
  refine h.2.1 [(1, "10.0.0.1:4000"), (2, "10.0.0.2:4000")] "node"
    [GoIP.mk true "10.0.0.1"] (fun _ => Except.ok [GoIP.mk true "10.0.0.1"])
    1 "10.0.0.1:4000" rfl ?_ (by decide) (by decide)
  intro a ha
  simp only [List.mem_cons, List.not_mem_nil, or_false] at ha
  rcases ha with rfl | rfl
  · exact ⟨("10.0.0.1", "4000"), by decide⟩
  · exact ⟨("10.0.0.2", "4000"), by decide⟩

/-- C9 counterexample: the table `[(0, 10.0.0.1:4000)]` contains the
detected local address exactly once, yet construction fails with the
address-not-found error because the matching role-id 0 is
indistinguishable from the not-found sentinel; and the no-match table
`[(7, badaddress)]` fails with a split error instead of
address-not-found because the malformed entry aborts the scan. -/
theorem constructCluster_resolution_counterexample :
    firstIPv4 [GoIP.mk true "10.0.0.1"] = "10.0.0.1"
    ∧ matchingEntries "10.0.0.1" [(0, "10.0.0.1:4000")] = [(0, "10.0.0.1:4000")]
    ∧ constructCluster 0 (Except.ok [(0, "10.0.0.1:4000")]) (Except.ok "node")
        (fun _ => Except.ok [GoIP.mk true "10.0.0.1"])
      = Except.error (GoErr.addressNotFound "10.0.0.1")
    ∧ matchingEntries "10.0.0.1" [(7, "badaddress")] = []
    ∧ constructCluster 0 (Except.ok [(7, "badaddress")]) (Except.ok "node")
        (fun _ => Except.ok [GoIP.mk true "10.0.0.1"])
      = Except.error (GoErr.splitErr "badaddress") := by
  refine ⟨by decide, by decide, by decide, by decide, by decide⟩
